import Mathlib

/-!
Verification of the Mr-Fresh-Coin token program (src/src/lib.rs).

The Rust program is embedded shallowly: `u64` values are `Nat` together with
explicit saturation at `U64MAX`, `i64` values are `Int` with explicit
saturation at `I64MIN`/`I64MAX`, and Rust `i64` division (which truncates
toward zero) is `Int.tdiv`.  The Solana account plumbing (ownership checks,
sysvar handles, borsh encoding) is outside the embedded logic: each processor
is modelled as a function from the deserialized state and the clock values
(`unix_timestamp`, `slot`) to `Except FreshError MrFreshState`, where an
`error` result means the persisted account bytes are left untouched (the Rust
code returns before any `serialize` call on every error path).
-/

/-- Equality of `Except` results is decidable, so concrete runs of the
embedded program can be checked by `decide`. -/
instance instDecEqExcept {ε α : Type} [DecidableEq ε] [DecidableEq α] :
    DecidableEq (Except ε α)
  | .ok a, .ok b =>
      if h : a = b then .isTrue (by rw [h]) else .isFalse (by simp [h])
  | .error e, .error f =>
      if h : e = f then .isTrue (by rw [h]) else .isFalse (by simp [h])
  | .ok _, .error _ => .isFalse (by simp)
  | .error _, .ok _ => .isFalse (by simp)

namespace MrFresh

/-- Largest `u64` value, `2^64 - 1`. -/
def U64MAX : Nat := 18446744073709551615

/-- Largest `i64` value, `2^63 - 1`. -/
def I64MAX : Int := 9223372036854775807

/-- Smallest `i64` value, `-2^63`. -/
def I64MIN : Int := -9223372036854775808

/-- `MINING_COOLDOWN` from lib.rs: 1800 seconds (30 minutes). -/
def MINING_COOLDOWN : Int := 1800

/-- `ENERGY_BURST_BONUS` from lib.rs: numerator of the 50% bonus. -/
def ENERGY_BURST_BONUS : Nat := 150

/-- `LUCKY_PURR_CHANCE` from lib.rs: the lucky modulus, 100. -/
def LUCKY_PURR_CHANCE : Nat := 100

/-- `LUCKY_PURR_BONUS` from lib.rs: numerator of the 10% bonus. -/
def LUCKY_PURR_BONUS : Nat := 110

/-- `MIN_DIFFICULTY` from lib.rs: 100. -/
def MIN_DIFFICULTY : Nat := 100

/-- `HALVING_INTERVAL` from lib.rs: 31,536,000 seconds (365 days). -/
def HALVING_INTERVAL : Int := 31536000

/-- `MAX_SUPPLY` from lib.rs: 50 million tokens with 9 decimals. -/
def MAX_SUPPLY : Nat := 50000000000000000

/-- `INITIAL_BASE_REWARD` from lib.rs: 10,000,000. -/
def INITIAL_BASE_REWARD : Nat := 10000000

/-- Rust `u64::saturating_add`. -/
def satAdd64 (a b : Nat) : Nat := min (a + b) U64MAX

/-- Rust `u64::saturating_mul`. -/
def satMul64 (a b : Nat) : Nat := min (a * b) U64MAX

/-- Rust `i64::saturating_sub`: the mathematical difference clamped into
the `i64` range. -/
def satSubI64 (a b : Int) : Int := max I64MIN (min (a - b) I64MAX)

/-- The persisted program state `MrFreshState` from lib.rs.  `u64` fields are
`Nat`, `i64` fields are `Int`. -/
structure MrFreshState where
  total_supply : Nat
  mining_difficulty : Nat
  last_mining_timestamp : Int
  total_miners : Nat
  total_transactions : Nat
  last_energy_burst_slot : Nat
  energy_burst_duration : Nat
  initialization_timestamp : Int
deriving DecidableEq, Repr

/-- The error enum `FreshError` from lib.rs. -/
inductive FreshError where
  | cooldownActive
  | poopDiscovered
  | invalidInstruction
  | difficultyTooLow
  | maxSupplyReached
deriving DecidableEq, Repr

/-- The instruction enum `MrFreshInstruction` from lib.rs.  The `Initialize`
variant is called `init` here. -/
inductive MrFreshInstruction where
  | init (mining_difficulty energy_burst_duration : Nat)
  | mine
  | updateDifficulty (new_difficulty : Nat)
deriving DecidableEq, Repr

/-- The halving epoch computed in `calculate_mining_reward`:
`time_since_start = current_time.saturating_sub(initialization_timestamp)`
followed by truncated `i64` division by `HALVING_INTERVAL`. -/
def halvingEpoch (s : MrFreshState) (current_time : Int) : Int :=
  (satSubI64 current_time s.initialization_timestamp).tdiv HALVING_INTERVAL

/-- The base reward after halving: the loop
`for _ in 0..halving_epoch { current_base_reward = current_base_reward.saturating_div(2) }`
in `calculate_mining_reward`.  A Rust range `0..e` for `e : i64` runs
`max 0 e` times, hence the `Int.toNat`. -/
def currentBaseReward (s : MrFreshState) (current_time : Int) : Nat :=
  Nat.iterate (fun r => r / 2) (halvingEpoch s current_time).toNat INITIAL_BASE_REWARD

/-- `calculate_mining_reward` from lib.rs.  `saturating_div` on `u64` is plain
floor division for a nonzero divisor (the program only ever divides by `2` and
by `mining_difficulty`, which is at least `MIN_DIFFICULTY > 0` in every state
produced by the guarded entry points). -/
def calculate_mining_reward (s : MrFreshState) (current_time : Int) :
    Except FreshError Nat :=
  if MAX_SUPPLY ≤ s.total_supply then
    .error .maxSupplyReached
  else if currentBaseReward s current_time = 0 then
    .error .maxSupplyReached
  else
    .ok (currentBaseReward s current_time / s.mining_difficulty)

/-- `is_energy_burst_active` from lib.rs: `slot - last_energy_burst_slot` is a
`u64` `saturating_sub`, which is exactly `Nat` subtraction. -/
def is_energy_burst_active (slot : Nat) (s : MrFreshState) : Bool :=
  decide ((s.last_energy_burst_slot = 0 ∨
           s.energy_burst_duration ≤ slot - s.last_energy_burst_slot) ∧
          slot % 41 = 0)

/-- The two bonus branches of `process_mining`: the energy-burst scaling
`reward.saturating_mul(ENERGY_BURST_BONUS).saturating_div(100)` when the burst
is active, then the lucky scaling
`reward.saturating_mul(LUCKY_PURR_BONUS).saturating_div(100)` when
`slot % LUCKY_PURR_CHANCE == 0`, in that order. -/
def bonusReward (burst lucky : Bool) (r : Nat) : Nat :=
  let r1 := if burst then satMul64 r ENERGY_BURST_BONUS / 100 else r
  if lucky then satMul64 r1 LUCKY_PURR_BONUS / 100 else r1

/-- The supply-cap clamp of `process_mining`:
`if total_supply.saturating_add(reward) > MAX_SUPPLY { reward = MAX_SUPPLY.saturating_sub(total_supply) }`.
`MAX_SUPPLY.saturating_sub` on `u64` is `Nat` subtraction. -/
def clampReward (supply r : Nat) : Nat :=
  if MAX_SUPPLY < satAdd64 supply r then MAX_SUPPLY - supply else r

/-- The state committed by a successful `process_mining` call: the burst side
effect on `last_energy_burst_slot`, then the final updates
`last_mining_timestamp = current_time`,
`total_supply = total_supply.saturating_add(reward)`,
`total_transactions = total_transactions.saturating_add(1)`. -/
def commitMine (s : MrFreshState) (current_time : Int) (slot : Nat)
    (base : Nat) : MrFreshState :=
  let burst := is_energy_burst_active slot s
  let s1 := if burst then { s with last_energy_burst_slot := slot } else s
  let reward := bonusReward burst (decide (slot % LUCKY_PURR_CHANCE = 0)) base
  let reward2 := clampReward s1.total_supply reward
  { s1 with
      last_mining_timestamp := current_time,
      total_supply := satAdd64 s1.total_supply reward2,
      total_transactions := satAdd64 s1.total_transactions 1 }

/-- `process_mining` from lib.rs, after the account-ownership and sysvar
checks: the cooldown gate, the poop gate, the reward computation and the
commit.  An `error` result means the Rust function returned before writing the
account, so the persisted state is unchanged. -/
def process_mining (s : MrFreshState) (current_time : Int) (slot : Nat) :
    Except FreshError MrFreshState :=
  if s.last_mining_timestamp ≠ 0 ∧
     satSubI64 current_time s.last_mining_timestamp < MINING_COOLDOWN then
    .error .cooldownActive
  else if slot ≠ 0 ∧ slot % 10 = 0 ∧ slot < 1000 then
    .error .poopDiscovered
  else
    (calculate_mining_reward s current_time).map (commitMine s current_time slot)

/-- The reward of a Mine call after both bonuses but before the supply-cap
clamp (the value of the Rust local `reward` at line 246 of lib.rs); `0` when
the reward calculator failed (in which case `process_mining` errors and no
reward exists). -/
def preClampReward (s : MrFreshState) (current_time : Int) (slot : Nat) : Nat :=
  match calculate_mining_reward s current_time with
  | .error _ => 0
  | .ok base =>
      bonusReward (is_energy_burst_active slot s)
        (decide (slot % LUCKY_PURR_CHANCE = 0)) base

/-- `process_initialize` from lib.rs, after the account checks: the fresh
state written for a given difficulty, burst duration and clock timestamp. -/
def process_init (d dur : Nat) (now : Int) : MrFreshState :=
  { total_supply := 0
    mining_difficulty := d
    last_mining_timestamp := 0
    total_miners := 0
    total_transactions := 0
    last_energy_burst_slot := 0
    energy_burst_duration := dur
    initialization_timestamp := now }

/-- `process_update_difficulty` from lib.rs, after the ownership check: it
unconditionally replaces `mining_difficulty`. -/
def process_update_difficulty (s : MrFreshState) (d : Nat) :
    Except FreshError MrFreshState :=
  .ok { s with mining_difficulty := d }

/-- `process_instruction` from lib.rs: the dispatcher, including the
`MIN_DIFFICULTY` guards on `Initialize` and `UpdateDifficulty`. -/
def process_instruction (s : MrFreshState) (i : MrFreshInstruction)
    (now : Int) (slot : Nat) : Except FreshError MrFreshState :=
  match i with
  | .init d dur =>
      if d < MIN_DIFFICULTY then .error .difficultyTooLow
      else .ok (process_init d dur now)
  | .mine => process_mining s now slot
  | .updateDifficulty d =>
      if d < MIN_DIFFICULTY then .error .difficultyTooLow
      else process_update_difficulty s d

/-- The persisted state after a call: the new state on success, the untouched
pre-state on error (every Rust error path returns before `serialize`). -/
def persistedAfter (s : MrFreshState) (i : MrFreshInstruction)
    (now : Int) (slot : Nat) : MrFreshState :=
  match process_instruction s i now slot with
  | .ok s2 => s2
  | .error _ => s

/-- States reachable from a successful guarded Initialize by successful
instruction calls. -/
inductive Reachable : MrFreshState → Prop where
  | init (d dur : Nat) (now : Int) (hd : MIN_DIFFICULTY ≤ d) :
      Reachable (process_init d dur now)
  | step (s s2 : MrFreshState) (i : MrFreshInstruction) (now : Int) (slot : Nat)
      (hs : Reachable s) (h : process_instruction s i now slot = .ok s2) :
      Reachable s2

end MrFresh

namespace MrFresh

/-- The halving loop of `calculate_mining_reward` iterated `n` times divides
by `2 ^ n`. -/
theorem iterate_div2 (n B : Nat) :
    Nat.iterate (fun r => r / 2) n B = B / 2 ^ n := by
  induction n with
  | zero => simp
  | succ k ih =>
      rw [Function.iterate_succ_apply', ih, Nat.div_div_eq_div_mul, pow_succ]

/-- Inversion for a successful reward calculation. -/
theorem calc_ok_iff (s : MrFreshState) (t : Int) (b : Nat) :
    calculate_mining_reward s t = .ok b ↔
      s.total_supply < MAX_SUPPLY ∧ currentBaseReward s t ≠ 0 ∧
      b = currentBaseReward s t / s.mining_difficulty := by
  unfold calculate_mining_reward
  split_ifs with h1 h2
  · simp only [reduceCtorEq, false_iff]
    rintro ⟨h, -⟩; omega
  · simp only [reduceCtorEq, false_iff]
    rintro ⟨-, h, -⟩; exact h h2
  · simp only [Except.ok.injEq]
    constructor
    · rintro rfl; exact ⟨by omega, h2, rfl⟩
    · rintro ⟨-, -, rfl⟩; rfl

/-- The reward calculator only ever fails with `MaxSupplyReached`. -/
theorem calc_error_imp (s : MrFreshState) (t : Int) (e : FreshError)
    (h : calculate_mining_reward s t = .error e) : e = .maxSupplyReached := by
  unfold calculate_mining_reward at h
  split_ifs at h <;> simp_all

/-- Inversion for a successful Mine call. -/
theorem mine_ok_iff (s : MrFreshState) (t : Int) (slot : Nat) (s2 : MrFreshState) :
    process_mining s t slot = .ok s2 ↔
      ¬(s.last_mining_timestamp ≠ 0 ∧ satSubI64 t s.last_mining_timestamp < MINING_COOLDOWN) ∧
      ¬(slot ≠ 0 ∧ slot % 10 = 0 ∧ slot < 1000) ∧
      ∃ b, calculate_mining_reward s t = .ok b ∧ s2 = commitMine s t slot b := by
  unfold process_mining
  split_ifs with h1 h2
  · refine iff_of_false (by simp) ?_
    rintro ⟨hh, -⟩; exact hh h1
  · refine iff_of_false ?_ ?_
    · cases hc : calculate_mining_reward s t <;> simp [Except.map, hc]
    · rintro ⟨-, hh, -⟩; exact hh h2
  · cases hc : calculate_mining_reward s t with
    | error e => simp [Except.map, hc, h1, h2]
    | ok b =>
        simp only [Except.map, Except.ok.injEq]
        constructor
        · rintro rfl
          exact ⟨h1, h2, b, rfl, rfl⟩
        · rintro ⟨-, -, b2, hb2, rfl⟩
          rw [hb2]

/-- A failed Mine call can only report cooldown, poop or the supply cap. -/
theorem mine_error_iff (s : MrFreshState) (t : Int) (slot : Nat) (e : FreshError)
    (h : process_mining s t slot = .error e) :
    e = .cooldownActive ∨ e = .poopDiscovered ∨ e = .maxSupplyReached := by
  unfold process_mining at h
  split_ifs at h
  · simp_all
  · simp_all
  · cases hc : calculate_mining_reward s t with
    | error e2 =>
        rw [hc] at h; simp [Except.map] at h
        subst h
        right; right; exact calc_error_imp s t e2 hc
    | ok b => rw [hc] at h; simp [Except.map] at h

/-- Saturating `i64` subtraction is exact when the difference is in range. -/
theorem satSubI64_of_bounded (a b : Int) (h1 : I64MIN ≤ a - b) (h2 : a - b ≤ I64MAX) :
    satSubI64 a b = a - b := by
  unfold satSubI64
  rw [min_eq_left h2, max_eq_right h1]

/-- A successful Mine commit stamps `last_mining_timestamp` with the call
time. -/
theorem commitMine_last_mining (s : MrFreshState) (t : Int) (slot b : Nat) :
    (commitMine s t slot b).last_mining_timestamp = t := by
  simp only [commitMine]

/-- The supply written by a Mine commit, as bonus then clamp then
saturating add over the pre-state supply. -/
theorem commitMine_supply (s : MrFreshState) (t : Int) (slot b : Nat) :
    (commitMine s t slot b).total_supply =
      satAdd64 s.total_supply
        (clampReward s.total_supply
          (bonusReward (is_energy_burst_active slot s)
            (decide (slot % LUCKY_PURR_CHANCE = 0)) b)) := by
  simp only [commitMine]
  split <;> rfl

/-- A Mine commit bumps `total_transactions` by a saturating one. -/
theorem commitMine_transactions (s : MrFreshState) (t : Int) (slot b : Nat) :
    (commitMine s t slot b).total_transactions = satAdd64 s.total_transactions 1 := by
  simp only [commitMine]
  split <;> rfl

/-- A Mine commit updates `last_energy_burst_slot` exactly when the burst was
active. -/
theorem commitMine_burst_slot (s : MrFreshState) (t : Int) (slot b : Nat) :
    (commitMine s t slot b).last_energy_burst_slot =
      if is_energy_burst_active slot s then slot else s.last_energy_burst_slot := by
  simp only [commitMine]
  split <;> simp_all

/-- A successfully computed reward never exceeds `INITIAL_BASE_REWARD`. -/
theorem calc_ok_le (s : MrFreshState) (t : Int) (b : Nat)
    (h : calculate_mining_reward s t = .ok b) : b ≤ INITIAL_BASE_REWARD := by
  rw [calc_ok_iff] at h
  obtain ⟨-, -, rfl⟩ := h
  calc currentBaseReward s t / s.mining_difficulty
      ≤ currentBaseReward s t := Nat.div_le_self _ _
    _ ≤ INITIAL_BASE_REWARD := by
        unfold currentBaseReward
        rw [iterate_div2]
        exact Nat.div_le_self _ _

end MrFresh

namespace MrFresh

/-- C1 (counterexample): the cooldown property fails at T = 0.  On a freshly
initialized state (difficulty 1000, burst duration 100, initialized at time 0)
a Mine at time 0, slot 1 succeeds, but because the commit writes
`last_mining_timestamp = 0` — the same value as the "never mined" sentinel —
an immediate second Mine at time 0 does not fail with `CooldownActive`; it
succeeds and mints a second reward. -/
theorem c1_counterexample :
    process_mining (process_init 1000 100 0) 0 1 =
      .ok ⟨10000, 1000, 0, 0, 1, 0, 100, 0⟩ ∧
    process_mining ⟨10000, 1000, 0, 0, 1, 0, 100, 0⟩ 0 1 ≠
      .error .cooldownActive ∧
    process_mining ⟨10000, 1000, 0, 0, 1, 0, 100, 0⟩ 0 1 =
      .ok ⟨20000, 1000, 0, 0, 2, 0, 100, 0⟩ := by
  decide

/-- C1 (amended): if Mine succeeds at a nonzero time T, then any Mine call on
the resulting state with current_time in `[T, T + MINING_COOLDOWN)` fails with
`CooldownActive` and leaves the persisted state unchanged.  (At T = 0 the
sentinel collision shown in the counterexample disables the cooldown.) -/
theorem c1_cooldown_after_nonzero_mine (s s2 : MrFreshState) (T t : Int)
    (slot slot2 : Nat) (hok : process_mining s T slot = .ok s2) (hT : T ≠ 0)
    (h1 : T ≤ t) (h2 : t < T + MINING_COOLDOWN) :
    process_mining s2 t slot2 = .error .cooldownActive ∧
    persistedAfter s2 .mine t slot2 = s2 := by
  unfold MINING_COOLDOWN at h2
  have hlast : s2.last_mining_timestamp = T := by
    rw [mine_ok_iff] at hok
    obtain ⟨-, -, b, -, rfl⟩ := hok
    exact commitMine_last_mining ..
  have hsub : satSubI64 t s2.last_mining_timestamp = t - T := by
    rw [hlast]
    apply satSubI64_of_bounded
    · unfold I64MIN; omega
    · unfold I64MAX; omega
  have hcond : s2.last_mining_timestamp ≠ 0 ∧
      satSubI64 t s2.last_mining_timestamp < MINING_COOLDOWN := by
    refine ⟨by rw [hlast]; exact hT, ?_⟩
    rw [hsub]; unfold MINING_COOLDOWN; omega
  have herr : process_mining s2 t slot2 = .error .cooldownActive := by
    unfold process_mining
    rw [if_pos hcond]
  refine ⟨herr, ?_⟩
  unfold persistedAfter process_instruction
  rw [herr]

/-- C1 witness: a Mine that succeeded at time 1000 blocks a second Mine at
time 1500, which fails with `CooldownActive` and changes nothing. -/
theorem c1_amended_witness :
    process_mining ⟨10000, 1000, 1000, 0, 1, 0, 100, 0⟩ 1500 1 =
      .error .cooldownActive ∧
    persistedAfter ⟨10000, 1000, 1000, 0, 1, 0, 100, 0⟩ .mine 1500 1 =
      ⟨10000, 1000, 1000, 0, 1, 0, 100, 0⟩ :=
  c1_cooldown_after_nonzero_mine (process_init 1000 100 0)
    ⟨10000, 1000, 1000, 0, 1, 0, 100, 0⟩ 1000 1500 1 1
    (by decide) (by decide) (by decide) (by decide)

/-- A successful Mine keeps `total_supply` at or below `MAX_SUPPLY`. -/
theorem mine_preserves_cap (s s2 : MrFreshState) (t : Int) (slot : Nat)
    (hs : s.total_supply ≤ MAX_SUPPLY)
    (h : process_mining s t slot = .ok s2) : s2.total_supply ≤ MAX_SUPPLY := by
  rw [mine_ok_iff] at h
  obtain ⟨-, -, b, -, rfl⟩ := h
  rw [commitMine_supply]
  unfold clampReward
  split_ifs with hclamp
  · unfold satAdd64 U64MAX MAX_SUPPLY at *
    omega
  · unfold satAdd64 U64MAX MAX_SUPPLY at *
    omega

/-- Every successful instruction keeps `total_supply` at or below
`MAX_SUPPLY`. -/
theorem step_preserves_cap (s s2 : MrFreshState) (i : MrFreshInstruction)
    (now : Int) (slot : Nat) (hs : s.total_supply ≤ MAX_SUPPLY)
    (h : process_instruction s i now slot = .ok s2) :
    s2.total_supply ≤ MAX_SUPPLY := by
  cases i with
  | init d dur =>
      simp only [process_instruction] at h
      split_ifs at h
      all_goals first
        | exact Except.noConfusion h
        | (rw [Except.ok.injEq] at h
           subst h
           simp [process_init, MAX_SUPPLY])
  | mine => exact mine_preserves_cap s s2 now slot hs h
  | updateDifficulty d =>
      simp only [process_instruction, process_update_difficulty] at h
      split_ifs at h
      all_goals first
        | exact Except.noConfusion h
        | (rw [Except.ok.injEq] at h
           subst h
           exact hs)

/-- C2: every state reachable from a successful Initialize through successful
instruction calls satisfies `0 ≤ total_supply ≤ MAX_SUPPLY`; no operation
ever pushes `total_supply` above `MAX_SUPPLY`. -/
theorem c2_supply_invariant (s : MrFreshState) (h : Reachable s) :
    0 ≤ s.total_supply ∧ s.total_supply ≤ MAX_SUPPLY := by
  induction h with
  | init d dur now hd =>
      refine ⟨Nat.zero_le _, ?_⟩
      simp [process_init, MAX_SUPPLY]
  | step s s2 i now slot hs hstep ih =>
      exact ⟨Nat.zero_le _, step_preserves_cap s s2 i now slot ih.2 hstep⟩

/-- C2 witness: the invariant holds at a concrete freshly initialized
state. -/
theorem c2_witness :
    0 ≤ (process_init 1000 100 0).total_supply ∧
    (process_init 1000 100 0).total_supply ≤ MAX_SUPPLY :=
  c2_supply_invariant (process_init 1000 100 0)
    (Reachable.init 1000 100 0 (by decide))

/-- C3: in a successful Mine on a state with `total_supply < MAX_SUPPLY`
whose post-bonus reward would overshoot the cap, the reward is clamped to
`MAX_SUPPLY - total_supply` and the committed supply is exactly
`MAX_SUPPLY`. -/
theorem c3_clamp (s s2 : MrFreshState) (t : Int) (slot : Nat)
    (hlt : s.total_supply < MAX_SUPPLY)
    (hok : process_mining s t slot = .ok s2)
    (hover : MAX_SUPPLY < s.total_supply + preClampReward s t slot) :
    clampReward s.total_supply (preClampReward s t slot) =
      MAX_SUPPLY - s.total_supply ∧
    s2.total_supply = MAX_SUPPLY := by
  rw [mine_ok_iff] at hok
  obtain ⟨-, -, b, hb, rfl⟩ := hok
  have hpre : preClampReward s t slot =
      bonusReward (is_energy_burst_active slot s)
        (decide (slot % LUCKY_PURR_CHANCE = 0)) b := by
    unfold preClampReward
    rw [hb]
  have hclamp : MAX_SUPPLY < satAdd64 s.total_supply (preClampReward s t slot) := by
    unfold satAdd64 U64MAX MAX_SUPPLY at *
    omega
  refine ⟨?_, ?_⟩
  · unfold clampReward
    rw [if_pos hclamp]
  · rw [commitMine_supply, ← hpre]
    unfold clampReward
    rw [if_pos hclamp]
    unfold satAdd64 U64MAX MAX_SUPPLY at *
    omega

/-- C3 witness: with supply `MAX_SUPPLY - 5` and computed reward 10000, the
reward clamps to 5 and the committed supply is exactly `MAX_SUPPLY`. -/
theorem c3_witness :
    clampReward 49999999999999995
      (preClampReward ⟨49999999999999995, 1000, 0, 0, 0, 0, 100, 0⟩ 0 1) =
      MAX_SUPPLY - 49999999999999995 ∧
    (⟨50000000000000000, 1000, 0, 0, 1, 0, 100, 0⟩ : MrFreshState).total_supply =
      MAX_SUPPLY :=
  c3_clamp ⟨49999999999999995, 1000, 0, 0, 0, 0, 100, 0⟩
    ⟨50000000000000000, 1000, 0, 0, 1, 0, 100, 0⟩ 0 1
    (by decide) (by decide) (by decide)

end MrFresh

namespace MrFresh

/-- C4: on a pre-cap state with difficulty at least `MIN_DIFFICULTY` and
elapsed time exactly `k` halving intervals, the reward calculator returns
`(INITIAL_BASE_REWARD / 2 ^ k) / difficulty` when the halved base is nonzero
and fails with `MaxSupplyReached` when it is zero, and the reward one epoch
later is no larger. -/
theorem c4_halving (s : MrFreshState) (t t2 : Int) (k : Nat)
    (hD : MIN_DIFFICULTY ≤ s.mining_difficulty)
    (hsup : s.total_supply < MAX_SUPPLY)
    (hk : satSubI64 t s.initialization_timestamp = (k : Int) * HALVING_INTERVAL)
    (hk2 : satSubI64 t2 s.initialization_timestamp =
      ((k : Int) + 1) * HALVING_INTERVAL) :
    (INITIAL_BASE_REWARD / 2 ^ k ≠ 0 →
      calculate_mining_reward s t =
        .ok (INITIAL_BASE_REWARD / 2 ^ k / s.mining_difficulty)) ∧
    (INITIAL_BASE_REWARD / 2 ^ k = 0 →
      calculate_mining_reward s t = .error .maxSupplyReached) ∧
    (∀ b b2, calculate_mining_reward s t = .ok b →
      calculate_mining_reward s t2 = .ok b2 → b2 ≤ b) := by
  have hbase : currentBaseReward s t = INITIAL_BASE_REWARD / 2 ^ k := by
    unfold currentBaseReward halvingEpoch
    rw [hk, Int.mul_tdiv_cancel _ (by unfold HALVING_INTERVAL; decide),
        Int.toNat_natCast, iterate_div2]
  have hcast : ((k : Int) + 1) = ((k + 1 : Nat) : Int) := by push_cast; ring
  have hbase2 : currentBaseReward s t2 = INITIAL_BASE_REWARD / 2 ^ (k + 1) := by
    unfold currentBaseReward halvingEpoch
    rw [hk2, hcast, Int.mul_tdiv_cancel _ (by unfold HALVING_INTERVAL; decide),
        Int.toNat_natCast, iterate_div2]
  refine ⟨?_, ?_, ?_⟩
  · intro hne
    rw [calc_ok_iff]
    exact ⟨hsup, by rw [hbase]; exact hne, by rw [hbase]⟩
  · intro hz
    unfold calculate_mining_reward
    rw [if_neg (by omega), if_pos (by rw [hbase]; exact hz)]
  · intro b b2 hb hb2
    rw [calc_ok_iff] at hb hb2
    obtain ⟨-, -, rfl⟩ := hb
    obtain ⟨-, -, rfl⟩ := hb2
    rw [hbase, hbase2]
    apply Nat.div_le_div_right
    rw [pow_succ, ← Nat.div_div_eq_div_mul]
    exact Nat.div_le_self _ _

/-- C4 witness: two full halving intervals after initialization with
difficulty 1000, the reward is `10000000 / 4 / 1000 = 2500`. -/
theorem c4_witness :
    calculate_mining_reward ⟨0, 1000, 0, 0, 0, 0, 100, 0⟩ 63072000 =
      .ok (INITIAL_BASE_REWARD / 2 ^ 2 / 1000) :=
  (c4_halving ⟨0, 1000, 0, 0, 0, 0, 100, 0⟩ 63072000 94608000 2
    (by decide) (by decide) (by decide) (by decide)).1 (by decide)

/-- C5: once the cooldown gate has passed, Mine fails with `PoopDiscovered`
exactly when `slot ≠ 0 ∧ slot % 10 = 0 ∧ slot < 1000`, and on that failure
the persisted state is unchanged. -/
theorem c5_poop_gate (s : MrFreshState) (t : Int) (slot : Nat)
    (hcd : ¬(s.last_mining_timestamp ≠ 0 ∧
      satSubI64 t s.last_mining_timestamp < MINING_COOLDOWN)) :
    (process_mining s t slot = .error .poopDiscovered ↔
      slot ≠ 0 ∧ slot % 10 = 0 ∧ slot < 1000) ∧
    (slot ≠ 0 ∧ slot % 10 = 0 ∧ slot < 1000 →
      persistedAfter s .mine t slot = s) := by
  have hmain : ∀ _ : slot ≠ 0 ∧ slot % 10 = 0 ∧ slot < 1000,
      process_mining s t slot = .error .poopDiscovered := by
    intro hp
    unfold process_mining
    rw [if_neg hcd, if_pos hp]
  refine ⟨⟨?_, hmain⟩, ?_⟩
  · intro h
    by_contra hnp
    unfold process_mining at h
    rw [if_neg hcd, if_neg hnp] at h
    cases hc : calculate_mining_reward s t with
    | error e =>
        rw [hc] at h
        simp [Except.map] at h
        have h2 := calc_error_imp s t e hc
        rw [h] at h2
        simp at h2
    | ok b =>
        rw [hc] at h
        simp [Except.map] at h
  · intro hp
    unfold persistedAfter process_instruction
    rw [hmain hp]

/-- C5 witness (Scenario D): Mine at slot 10 on a fresh state fails with
`PoopDiscovered` and leaves the state unchanged. -/
theorem c5_witness :
    process_mining (process_init 1000 100 0) 0 10 = .error .poopDiscovered ∧
    persistedAfter (process_init 1000 100 0) .mine 0 10 =
      process_init 1000 100 0 :=
  ⟨(c5_poop_gate (process_init 1000 100 0) 0 10 (by decide)).1.mpr (by decide),
   (c5_poop_gate (process_init 1000 100 0) 0 10 (by decide)).2 (by decide)⟩

end MrFresh

namespace MrFresh

/-- C6: in a successful Mine with base reward `b`, the energy burst applies
exactly when `(last_energy_burst_slot = 0 ∨ slot - last_energy_burst_slot ≥
energy_burst_duration) ∧ slot % 41 = 0`, scaling the reward to `b * 150 / 100`
and committing `last_energy_burst_slot = slot`; the lucky bonus applies
exactly when `slot % 100 = 0`, scaling the post-burst reward `r` to
`r * 110 / 100`; the bonuses compose in that fixed order, so with both active
the pre-clamp reward is `b * 150 / 100 * 110 / 100`. -/
theorem c6_bonus_composition (s s2 : MrFreshState) (t : Int) (slot b : Nat)
    (hok : process_mining s t slot = .ok s2)
    (hb : calculate_mining_reward s t = .ok b) :
    (is_energy_burst_active slot s = true ↔
      (s.last_energy_burst_slot = 0 ∨
        s.energy_burst_duration ≤ slot - s.last_energy_burst_slot) ∧
      slot % 41 = 0) ∧
    (is_energy_burst_active slot s = true → s2.last_energy_burst_slot = slot) ∧
    (is_energy_burst_active slot s = false →
      s2.last_energy_burst_slot = s.last_energy_burst_slot) ∧
    (preClampReward s t slot =
      bonusReward (is_energy_burst_active slot s) (decide (slot % 100 = 0)) b) ∧
    (is_energy_burst_active slot s = true → ¬slot % 100 = 0 →
      preClampReward s t slot = b * 150 / 100) ∧
    (is_energy_burst_active slot s = false → slot % 100 = 0 →
      preClampReward s t slot = b * 110 / 100) ∧
    (is_energy_burst_active slot s = true → slot % 100 = 0 →
      preClampReward s t slot = b * 150 / 100 * 110 / 100) := by
  have hble : b ≤ INITIAL_BASE_REWARD := calc_ok_le s t b hb
  have hpre : preClampReward s t slot =
      bonusReward (is_energy_burst_active slot s)
        (decide (slot % LUCKY_PURR_CHANCE = 0)) b := by
    unfold preClampReward
    rw [hb]
  have hmul1 : satMul64 b ENERGY_BURST_BONUS = b * 150 := by
    unfold satMul64 ENERGY_BURST_BONUS U64MAX
    unfold INITIAL_BASE_REWARD at hble
    omega
  have hmul2 : satMul64 (b * 150 / 100) LUCKY_PURR_BONUS = b * 150 / 100 * 110 := by
    unfold satMul64 LUCKY_PURR_BONUS U64MAX
    unfold INITIAL_BASE_REWARD at hble
    have : b * 150 / 100 ≤ b * 150 := Nat.div_le_self _ _
    omega
  have hmul3 : satMul64 b LUCKY_PURR_BONUS = b * 110 := by
    unfold satMul64 LUCKY_PURR_BONUS U64MAX
    unfold INITIAL_BASE_REWARD at hble
    omega
  rw [mine_ok_iff] at hok
  obtain ⟨-, -, b2, hb2, rfl⟩ := hok
  rw [hb] at hb2
  rw [Except.ok.injEq] at hb2
  subst hb2
  refine ⟨?_, ?_, ?_, ?_, ?_, ?_, ?_⟩
  · unfold is_energy_burst_active
    simp
  · intro hact
    rw [commitMine_burst_slot, if_pos hact]
  · intro hact
    rw [commitMine_burst_slot, if_neg (by rw [hact]; simp)]
  · rw [hpre]
    rfl
  · intro hact hlucky
    rw [hpre]
    unfold bonusReward LUCKY_PURR_CHANCE
    rw [hact]
    simp only [if_true, decide_eq_true_eq]
    rw [if_neg (by simpa using hlucky), hmul1]
  · intro hact hlucky
    rw [hpre]
    unfold bonusReward LUCKY_PURR_CHANCE
    rw [hact]
    simp only [if_false, Bool.false_eq_true, decide_eq_true_eq]
    rw [if_pos (by simpa using hlucky), hmul3]
  · intro hact hlucky
    rw [hpre]
    unfold bonusReward LUCKY_PURR_CHANCE
    rw [hact]
    simp only [if_true, decide_eq_true_eq]
    rw [if_pos (by simpa using hlucky), hmul1, hmul2]

/-- C6 witness: at slot 4100 (both `% 41 = 0` and `% 100 = 0`) on a fresh
state with base reward 10000, the pre-clamp reward is
`10000 * 150 / 100 * 110 / 100 = 16500` and the committed burst slot is
4100. -/
theorem c6_witness :
    preClampReward (process_init 1000 100 0) 0 4100 =
      10000 * 150 / 100 * 110 / 100 ∧
    (⟨16500, 1000, 0, 0, 1, 4100, 100, 0⟩ : MrFreshState).last_energy_burst_slot =
      4100 :=
  ⟨(c6_bonus_composition (process_init 1000 100 0)
      ⟨16500, 1000, 0, 0, 1, 4100, 100, 0⟩ 0 4100 10000
      (by decide) (by decide)).2.2.2.2.2.2 (by decide) (by decide),
   (c6_bonus_composition (process_init 1000 100 0)
      ⟨16500, 1000, 0, 0, 1, 4100, 100, 0⟩ 0 4100 10000
      (by decide) (by decide)).2.1 (by decide)⟩

end MrFresh

namespace MrFresh

/-- C7: Initialize and UpdateDifficulty fail with `DifficultyTooLow` exactly
when the supplied difficulty is below `MIN_DIFFICULTY` (100), touching no
state on failure, and every successful Initialize or UpdateDifficulty leaves
`mining_difficulty ≥ MIN_DIFFICULTY`. -/
theorem c7_difficulty_gate (s : MrFreshState) (d dur nd : Nat) (now : Int)
    (slot : Nat) :
    (process_instruction s (.init d dur) now slot = .error .difficultyTooLow ↔
      d < MIN_DIFFICULTY) ∧
    (process_instruction s (.updateDifficulty nd) now slot =
        .error .difficultyTooLow ↔ nd < MIN_DIFFICULTY) ∧
    (∀ s2, process_instruction s (.init d dur) now slot = .ok s2 →
      MIN_DIFFICULTY ≤ s2.mining_difficulty) ∧
    (∀ s2, process_instruction s (.updateDifficulty nd) now slot = .ok s2 →
      MIN_DIFFICULTY ≤ s2.mining_difficulty) ∧
    (d < MIN_DIFFICULTY → persistedAfter s (.init d dur) now slot = s) ∧
    (nd < MIN_DIFFICULTY →
      persistedAfter s (.updateDifficulty nd) now slot = s) := by
  refine ⟨?_, ?_, ?_, ?_, ?_, ?_⟩
  · simp only [process_instruction]
    split_ifs with hd
    · simp [hd]
    · simp [hd]
  · simp only [process_instruction, process_update_difficulty]
    split_ifs with hd
    · simp [hd]
    · simp [hd]
  · intro s2 h
    simp only [process_instruction] at h
    split_ifs at h with hd
    all_goals first
      | exact Except.noConfusion h
      | (rw [Except.ok.injEq] at h
         subst h
         simpa [process_init] using Nat.le_of_not_lt hd)
  · intro s2 h
    simp only [process_instruction, process_update_difficulty] at h
    split_ifs at h with hd
    all_goals first
      | exact Except.noConfusion h
      | (rw [Except.ok.injEq] at h
         subst h
         simpa using Nat.le_of_not_lt hd)
  · intro hd
    simp only [persistedAfter, process_instruction]
    rw [if_pos hd]
  · intro hd
    simp only [persistedAfter, process_instruction]
    rw [if_pos hd]

/-- C7 witness (Scenario E): UpdateDifficulty with new difficulty 50 fails
with `DifficultyTooLow` and leaves the state unchanged. -/
theorem c7_witness :
    process_instruction (process_init 1000 100 0) (.updateDifficulty 50) 0 1 =
      .error .difficultyTooLow ∧
    persistedAfter (process_init 1000 100 0) (.updateDifficulty 50) 0 1 =
      process_init 1000 100 0 :=
  ⟨(c7_difficulty_gate (process_init 1000 100 0) 1000 100 50 0 1).2.1.mpr
      (by decide),
   (c7_difficulty_gate (process_init 1000 100 0) 1000 100 50 0 1).2.2.2.2.2
      (by decide)⟩

/-- C8: with `current_time` before the initialization timestamp the reward
calculator performs zero halvings (no underflow, no negative halving count in
the loop), returns the same result as at elapsed time zero, and pre-cap the
reward is `INITIAL_BASE_REWARD / mining_difficulty`. -/
theorem c8_negative_time (s : MrFreshState) (t : Int)
    (h : t < s.initialization_timestamp) :
    (halvingEpoch s t).toNat = 0 ∧
    calculate_mining_reward s t =
      calculate_mining_reward s s.initialization_timestamp ∧
    (s.total_supply < MAX_SUPPLY →
      calculate_mining_reward s t =
        .ok (INITIAL_BASE_REWARD / s.mining_difficulty)) := by
  have hneg : satSubI64 t s.initialization_timestamp < 0 := by
    unfold satSubI64 I64MIN I64MAX
    omega
  have hep : (halvingEpoch s t).toNat = 0 := by
    rw [Int.toNat_eq_zero]
    unfold halvingEpoch
    have hnn := Int.tdiv_nonneg
      (a := -(satSubI64 t s.initialization_timestamp)) (b := HALVING_INTERVAL)
      (by omega) (by unfold HALVING_INTERVAL; decide)
    rw [Int.neg_tdiv] at hnn
    omega
  have hzero : satSubI64 s.initialization_timestamp s.initialization_timestamp = 0 := by
    unfold satSubI64 I64MIN I64MAX
    omega
  have hep0 : (halvingEpoch s s.initialization_timestamp).toNat = 0 := by
    unfold halvingEpoch
    rw [hzero]
    simp
  have hbase : currentBaseReward s t = INITIAL_BASE_REWARD := by
    unfold currentBaseReward
    rw [hep]
    rfl
  have hbase0 : currentBaseReward s s.initialization_timestamp =
      INITIAL_BASE_REWARD := by
    unfold currentBaseReward
    rw [hep0]
    rfl
  refine ⟨hep, ?_, ?_⟩
  · unfold calculate_mining_reward
    rw [hbase, hbase0]
  · intro hsup
    rw [calc_ok_iff]
    refine ⟨hsup, ?_, by rw [hbase]⟩
    rw [hbase]
    unfold INITIAL_BASE_REWARD
    omega

/-- C8 witness: at time -50 on a state initialized at time 100, zero halvings
are performed and the reward is `INITIAL_BASE_REWARD / 1000`. -/
theorem c8_witness :
    ((halvingEpoch ⟨0, 1000, 0, 0, 0, 0, 100, 100⟩ (-50)).toNat = 0) ∧
    calculate_mining_reward ⟨0, 1000, 0, 0, 0, 0, 100, 100⟩ (-50) =
      .ok (INITIAL_BASE_REWARD / 1000) :=
  ⟨(c8_negative_time ⟨0, 1000, 0, 0, 0, 0, 100, 100⟩ (-50) (by decide)).1,
   (c8_negative_time ⟨0, 1000, 0, 0, 0, 0, 100, 100⟩ (-50) (by decide)).2.2
      (by decide)⟩

/-- C9: a successful UpdateDifficulty changes only `mining_difficulty`; all
seven other persisted fields are unchanged. -/
theorem c9_update_frame (s s2 : MrFreshState) (d : Nat) (now : Int) (slot : Nat)
    (h : process_instruction s (.updateDifficulty d) now slot = .ok s2) :
    s2.mining_difficulty = d ∧
    s2.total_supply = s.total_supply ∧
    s2.last_mining_timestamp = s.last_mining_timestamp ∧
    s2.total_miners = s.total_miners ∧
    s2.total_transactions = s.total_transactions ∧
    s2.last_energy_burst_slot = s.last_energy_burst_slot ∧
    s2.energy_burst_duration = s.energy_burst_duration ∧
    s2.initialization_timestamp = s.initialization_timestamp := by
  simp only [process_instruction, process_update_difficulty] at h
  split_ifs at h
  all_goals first
    | exact Except.noConfusion h
    | (rw [Except.ok.injEq] at h
       subst h
       exact ⟨rfl, rfl, rfl, rfl, rfl, rfl, rfl, rfl⟩)

/-- C9 witness: updating the difficulty of a concrete state to 500 changes
only the `mining_difficulty` field. -/
theorem c9_witness :
    (⟨1, 500, 3, 4, 5, 6, 7, 8⟩ : MrFreshState).mining_difficulty = 500 ∧
    (⟨1, 500, 3, 4, 5, 6, 7, 8⟩ : MrFreshState).total_supply =
      (⟨1, 2, 3, 4, 5, 6, 7, 8⟩ : MrFreshState).total_supply ∧
    (⟨1, 500, 3, 4, 5, 6, 7, 8⟩ : MrFreshState).last_mining_timestamp =
      (⟨1, 2, 3, 4, 5, 6, 7, 8⟩ : MrFreshState).last_mining_timestamp ∧
    (⟨1, 500, 3, 4, 5, 6, 7, 8⟩ : MrFreshState).total_miners =
      (⟨1, 2, 3, 4, 5, 6, 7, 8⟩ : MrFreshState).total_miners ∧
    (⟨1, 500, 3, 4, 5, 6, 7, 8⟩ : MrFreshState).total_transactions =
      (⟨1, 2, 3, 4, 5, 6, 7, 8⟩ : MrFreshState).total_transactions ∧
    (⟨1, 500, 3, 4, 5, 6, 7, 8⟩ : MrFreshState).last_energy_burst_slot =
      (⟨1, 2, 3, 4, 5, 6, 7, 8⟩ : MrFreshState).last_energy_burst_slot ∧
    (⟨1, 500, 3, 4, 5, 6, 7, 8⟩ : MrFreshState).energy_burst_duration =
      (⟨1, 2, 3, 4, 5, 6, 7, 8⟩ : MrFreshState).energy_burst_duration ∧
    (⟨1, 500, 3, 4, 5, 6, 7, 8⟩ : MrFreshState).initialization_timestamp =
      (⟨1, 2, 3, 4, 5, 6, 7, 8⟩ : MrFreshState).initialization_timestamp :=
  c9_update_frame ⟨1, 2, 3, 4, 5, 6, 7, 8⟩ ⟨1, 500, 3, 4, 5, 6, 7, 8⟩ 500 0 0
    (by decide)

/-- C10: when the gates pass, the supply is below the cap, and the halved
base reward is nonzero but below the difficulty, Mine succeeds with reward
zero: `total_supply` is unchanged while `last_mining_timestamp` is stamped
and `total_transactions` is incremented, so the cooldown is consumed with no
tokens minted. -/
theorem c10_zero_reward_mine (s : MrFreshState) (t : Int) (slot : Nat)
    (hcd : ¬(s.last_mining_timestamp ≠ 0 ∧
      satSubI64 t s.last_mining_timestamp < MINING_COOLDOWN))
    (hpoop : ¬(slot ≠ 0 ∧ slot % 10 = 0 ∧ slot < 1000))
    (hsup : s.total_supply < MAX_SUPPLY)
    (hb0 : currentBaseReward s t ≠ 0)
    (hblt : currentBaseReward s t < s.mining_difficulty)
    (htr : s.total_transactions < U64MAX) :
    ∃ s2, process_mining s t slot = .ok s2 ∧
      s2.total_supply = s.total_supply ∧
      s2.last_mining_timestamp = t ∧
      s2.total_transactions = s.total_transactions + 1 := by
  have hcalc : calculate_mining_reward s t = .ok 0 := by
    rw [calc_ok_iff]
    exact ⟨hsup, hb0, (Nat.div_eq_of_lt hblt).symm⟩
  refine ⟨commitMine s t slot 0, ?_, ?_, commitMine_last_mining .., ?_⟩
  · rw [mine_ok_iff]
    exact ⟨hcd, hpoop, 0, hcalc, rfl⟩
  · rw [commitMine_supply]
    have hbz : bonusReward (is_energy_burst_active slot s)
        (decide (slot % LUCKY_PURR_CHANCE = 0)) 0 = 0 := by
      unfold bonusReward satMul64
      split_ifs <;> simp
    rw [hbz]
    unfold clampReward satAdd64 U64MAX MAX_SUPPLY at *
    split_ifs <;> omega
  · rw [commitMine_transactions]
    unfold satAdd64 U64MAX at *
    omega

/-- C10 witness: 23 halving epochs in (halved base reward 1, difficulty
1000) Mine succeeds, mints nothing, stamps the timestamp and counts the
transaction. -/
theorem c10_witness :
    ∃ s2, process_mining ⟨0, 1000, 0, 0, 0, 0, 100, 0⟩ 725328000 1 = .ok s2 ∧
      s2.total_supply = 0 ∧
      s2.last_mining_timestamp = 725328000 ∧
      s2.total_transactions = 1 :=
  c10_zero_reward_mine ⟨0, 1000, 0, 0, 0, 0, 100, 0⟩ 725328000 1
    (by decide) (by decide) (by decide) (by decide) (by decide) (by decide)

end MrFresh
